import Mathlib

/-!
Verification of the Multi-Provider Request Dispatch & Fallback Orchestrator
of the terminal-ai CLI (main.go), as a shallow embedding in Lean 4.

The embedding follows the Go source:
* Go strings become `String`; `strings.Contains`, `strings.TrimSpace`,
  `strings.HasPrefix`, `strings.TrimPrefix` are re-implemented over the
  character lists with the same semantics (`stringsContains`, `trimSpace`,
  `hasPrefixStr`, `trimPrefixStr`).
* The Go map `providerConfig.Providers` is modelled as an association list in
  one map-iteration order; indexing yields the zero value when the key is
  absent, modelled by `getD` with `zeroConfig`.
* `sort.Slice` with the strict priority comparison is executed by Go as a
  stable insertion sort at these input sizes; it is embedded as
  `List.insertionSort` with the non-strict priority relation, which produces
  the same stably-sorted output.
* The network and JSON-serialization effects of `makeRequest` are an oracle:
  `marshalErr` gives the (deterministic, per-provider) outcome of
  `json.Marshal`, and `net` gives the outcome of the HTTP round trip for each
  (provider, retry) pair.  `makeRequest` returning `(nil, err)` is `.error`,
  returning `(&response, nil)` is `.ok`.
* The orchestrator additionally returns the list of `makeRequest` invocations
  (provider name, retry index, whether the network was reached), so that
  attempt counts can be stated; the control flow is unchanged.
-/

/-- Mirror of Go `strings.Contains` on character lists. -/
def charsContain (sub : List Char) : List Char → Bool
  | [] => sub.isEmpty
  | c :: rest => sub.isPrefixOf (c :: rest) || charsContain sub rest

/-- Go `strings.Contains s sub`. -/
def stringsContains (s sub : String) : Bool :=
  charsContain sub.data s.data

/-- Go `strings.HasPrefix s pre`. -/
def hasPrefixStr (s pre : String) : Bool :=
  pre.data.isPrefixOf s.data

/-- Go `strings.TrimPrefix s pre`. -/
def trimPrefixStr (s pre : String) : String :=
  if hasPrefixStr s pre then String.mk (s.data.drop pre.data.length) else s

/-- Go `strings.TrimSpace` (ASCII whitespace, which covers the SSE framing). -/
def trimSpace (s : String) : String :=
  String.mk (((s.data.dropWhile Char.isWhitespace).reverse.dropWhile Char.isWhitespace).reverse)

/-- struct APIError. -/
structure APIError where
  message : String
  type : String
  deriving DecidableEq, Repr

/-- struct Message. -/
structure Message where
  role : String
  content : String
  deriving DecidableEq, Repr

/-- struct Choice. -/
structure Choice where
  message : Message
  deriving DecidableEq, Repr

/-- struct Response. -/
structure Response where
  choices : List Choice
  error : Option APIError
  deriving DecidableEq, Repr

/-- struct Request. -/
structure Request where
  model : String
  messages : List Message
  stream : Bool
  deriving DecidableEq, Repr

/-- struct StreamingDelta. -/
structure StreamingDelta where
  content : String
  deriving DecidableEq, Repr

/-- struct StreamingChoice. -/
structure StreamingChoice where
  delta : StreamingDelta
  deriving DecidableEq, Repr

/-- struct StreamingResponse. -/
structure StreamingResponse where
  choices : List StreamingChoice
  error : Option APIError
  deriving DecidableEq, Repr

/-- struct OpenRouterBYOKConfig. -/
structure OpenRouterBYOKConfig where
  enabled : Bool
  providerOrder : List String
  allowFallbackToShared : Bool
  models : List (String × String)
  deriving DecidableEq, Repr

/-- struct AIProviderConfig (the fields the orchestrator reads). -/
structure AIProviderConfig where
  priority : Int
  enabled : Bool
  maxRetries : Int
  byokConfig : Option OpenRouterBYOKConfig
  deriving DecidableEq, Repr

/-- struct AIProvider. -/
structure AIProvider where
  name : String
  apiKey : String
  endpoint : String
  model : String
  deriving DecidableEq, Repr

/-- struct OpenRouterProvider. -/
structure OpenRouterProvider where
  allowFallbacks : Bool
  order : List String
  deriving DecidableEq, Repr

/-- struct OpenRouterRequest; `provider = none` means the field is absent
from the serialized payload (json omitempty on the nil pointer). -/
structure OpenRouterRequest where
  model : String
  messages : List Message
  stream : Bool
  provider : Option OpenRouterProvider
  deriving DecidableEq, Repr

/-- func classifyError(err error, response *Response) string.  The transport
error is its text (`err.Error()`), `none` standing for a nil error. -/
def classifyError (err : Option String) (response : Option Response) : String :=
  if (match err with
      | some e => stringsContains e "timeout" || stringsContains e "deadline exceeded"
      | none => false) then "timeout"
  else if (match err with
      | some e => stringsContains e "connection" || stringsContains e "network"
      | none => false) then "network"
  else
    match response with
    | some r =>
      match r.error with
      | some a =>
        if stringsContains a.type "rate_limit" || stringsContains a.message "rate limit"
            || stringsContains a.message "429" then "rate_limit"
        else "server_error"
      | none => "unknown"
    | none => "unknown"

/-- The five classification rules exactly as the specification words them
(§4.2), as one flat precedence chain.  This is the spec-side definition used
for the refinement statement of claim C3; `classifyError` above is the
code-side one. -/
def classifySpecRules (err : Option String) (response : Option Response) : String :=
  if (match err with
      | some e => stringsContains e "timeout" || stringsContains e "deadline exceeded"
      | none => false) then "timeout"
  else if (match err with
      | some e => stringsContains e "connection" || stringsContains e "network"
      | none => false) then "network"
  else if (match response with
      | some r =>
        match r.error with
        | some a => stringsContains a.type "rate_limit" || stringsContains a.message "rate limit"
            || stringsContains a.message "429"
        | none => false
      | none => false) then "rate_limit"
  else if (match response with
      | some r => r.error.isSome
      | none => false) then "server_error"
  else "unknown"

/-- func combineErrors(err error, response *Response) error, as the text the
returned error renders to. -/
def combineErrors (err : Option String) (response : Option Response) : String :=
  match err, response with
  | some e, some r =>
    match r.error with
    | some a => e ++ ": " ++ a.message
    | none => e
  | some e, none => e
  | none, some r =>
    match r.error with
    | some a => a.message
    | none => "unknown error"
  | none, none => "unknown error"

/-- The comparison relation passed to sort.Slice in getOrderedProviders, on
(name, priority) pairs; non-strict so that the stable insertion sort it
induces coincides with Go's stable insertion sort under the strict `<`. -/
def priLe (a b : String × Int) : Prop := a.2 ≤ b.2

instance : DecidableRel priLe := fun a b => inferInstanceAs (Decidable (a.2 ≤ b.2))

instance : IsTotal (String × Int) priLe := ⟨fun a b => Int.le_total a.2 b.2⟩

instance : IsTrans (String × Int) priLe := ⟨fun _ _ _ hab hbc => Int.le_trans hab hbc⟩

/-- The enabled (name, priority) pairs, in map-iteration order (the `cfgs`
association list models one iteration order of providerConfig.Providers). -/
def enabledPriorities (cfgs : List (String × AIProviderConfig)) : List (String × Int) :=
  (cfgs.filter (fun p => p.2.enabled)).map (fun p => (p.1, p.2.priority))

/-- The sorted (name, priority) pairs built by getOrderedProviders. -/
def orderedPairs (cfgs : List (String × AIProviderConfig)) : List (String × Int) :=
  (enabledPriorities cfgs).insertionSort priLe

/-- func getOrderedProviders() []string. -/
def getOrderedProviders (cfgs : List (String × AIProviderConfig)) : List String :=
  (orderedPairs cfgs).map Prod.fst

/-- The zero value of AIProviderConfig, produced by indexing the Go map with
an absent key. -/
def zeroConfig : AIProviderConfig :=
  { priority := 0, enabled := false, maxRetries := 0, byokConfig := none }

/-- The provider registry read by one dispatch: `providerCfgs` is
providerConfig.Providers in one map-iteration order, `providers` is the
`providers` map (with its zero value on absent keys). -/
structure Registry where
  providerCfgs : List (String × AIProviderConfig)
  providers : String → AIProvider

/-- providerConfig.Providers[name] (zero value when absent). -/
def lookupConfig (reg : Registry) (name : String) : AIProviderConfig :=
  (reg.providerCfgs.lookup name).getD zeroConfig

/-- The effects of one makeRequest call: `marshalErr name` is the outcome of
json.Marshal of that provider's payload (deterministic per dispatch), and
`net name retry` is the outcome of the HTTP round trip on the given retry
index: `.error e` for a transport failure `e`, `.ok r` for a decoded body. -/
structure Oracle where
  marshalErr : String → Option String
  net : String → Nat → Except String Response

/-- What one makeRequest call did: whether it reached the network, and its
Go result, `(nil, err)` as `.error err` and `(&response, nil)` as `.ok r`. -/
structure AttemptResult where
  networkCalled : Bool
  result : Except String Response
  deriving Repr

/-- func makeRequest: json.Marshal of the payload first (returning the error
before any network call when it fails), then the HTTP call and the lenient
body decode, whose combined outcome the oracle gives. -/
def makeRequest (o : Oracle) (name : String) (retry : Nat) : AttemptResult :=
  match o.marshalErr name with
  | some e => ⟨false, .error e⟩
  | none => ⟨true, o.net name retry⟩

/-- One makeRequest invocation recorded by the orchestrator. -/
structure TraceEntry where
  provider : String
  retry : Nat
  networkCalled : Bool
  deriving DecidableEq, Repr

/-- Whether the retry loop body ends in `continue` (true) or `break` (false)
for a classified failure: each recognized category retries while
`retry < config.MaxRetries` and breaks at the budget; any other category
falls through all branches, so the loop simply advances. -/
def shouldContinue (errorType : String) (retry : Nat) (maxRetries : Int) : Bool :=
  if errorType == "rate_limit" then decide ((retry : Int) < maxRetries)
  else if errorType == "server_error" || errorType == "network" then
    decide ((retry : Int) < maxRetries)
  else if errorType == "timeout" then decide ((retry : Int) < maxRetries)
  else true

/-- Result of the per-provider retry loop: an immediate return on success, or
falling out of the loop with the last recorded error. -/
inductive RetryOutcome where
  | success (response : Response)
  | exhausted (lastError : Option String)
  deriving Repr

/-- The inner `for retry := 0; retry <= config.MaxRetries; retry++` loop of
makeRequestWithFallback, over the list of remaining retry indices, returning
the makeRequest invocations it performed and its outcome.  Success is Go's
`err == nil && (response.Error == nil || response.Error.Message == "")`. -/
def retryLoop (o : Oracle) (name : String) (maxRetries : Int) :
    Option String → List Nat → List TraceEntry × RetryOutcome
  | lastError, [] => ([], .exhausted lastError)
  | lastError, retry :: rest =>
    let ar := makeRequest o name retry
    let entry : TraceEntry := ⟨name, retry, ar.networkCalled⟩
    match ar.result with
    | .ok response =>
      if (match response.error with
          | some a => a.message == ""
          | none => true) then
        ([entry], .success response)
      else
        let errorType := classifyError none (some response)
        let lastError' := some ("provider " ++ name ++ ": " ++ combineErrors none (some response))
        if shouldContinue errorType retry maxRetries then
          let next := retryLoop o name maxRetries lastError' rest
          (entry :: next.1, next.2)
        else ([entry], .exhausted lastError')
    | .error err =>
      let errorType := classifyError (some err) none
      let lastError' := some ("provider " ++ name ++ ": " ++ combineErrors (some err) none)
      if shouldContinue errorType retry maxRetries then
        let next := retryLoop o name maxRetries lastError' rest
        (entry :: next.1, next.2)
      else ([entry], .exhausted lastError')

/-- The retry indices the Go loop visits: 0 .. config.MaxRetries. -/
def retryIndices (maxRetries : Int) : List Nat :=
  List.range' 0 (maxRetries + 1).toNat

/-- Final outcome of makeRequestWithFallback: a response with the name of the
provider that produced it, or the combined all-providers-failed error built
from the retained last error. -/
inductive FallbackResult where
  | success (response : Response) (provider : String)
  | allFailed (lastError : Option String)
  deriving Repr

/-- The provider loop of makeRequestWithFallback over the ordered provider
names: skip names already attempted, mark the name attempted, skip disabled
configs and empty credentials, then run the retry loop and either return its
success or retain its last error and move on. -/
def fallbackLoop (o : Oracle) (reg : Registry) :
    List String → Option String → List String → List TraceEntry × FallbackResult
  | attempted, lastError, [] => ([], .allFailed lastError)
  | attempted, lastError, name :: rest =>
    if attempted.contains name then fallbackLoop o reg attempted lastError rest
    else
      let attempted' := name :: attempted
      let config := lookupConfig reg name
      if !config.enabled then fallbackLoop o reg attempted' lastError rest
      else if (reg.providers name).apiKey == "" then
        fallbackLoop o reg attempted' lastError rest
      else
        match retryLoop o name config.maxRetries lastError (retryIndices config.maxRetries) with
        | (tr, .success response) => (tr, .success response name)
        | (tr, .exhausted le) =>
          let next := fallbackLoop o reg attempted' le rest
          (tr ++ next.1, next.2)

/-- func makeRequestWithFallback, with its trace of makeRequest calls. -/
def makeRequestWithFallback (o : Oracle) (reg : Registry) :
    List TraceEntry × FallbackResult :=
  fallbackLoop o reg [] none (getOrderedProviders reg.providerCfgs)

/-- Number of attempts the trace records on one provider. -/
def attemptsOn (tr : List TraceEntry) (name : String) : Nat :=
  (tr.filter (fun e => e.provider == name)).length

/-- The attempt budget one provider contributes to a dispatch: maxRetries+1
when it is enabled with a non-empty credential, nothing otherwise. -/
def providerBudget (reg : Registry) (name : String) : Nat :=
  if (lookupConfig reg name).enabled && !((reg.providers name).apiKey == "") then
    ((lookupConfig reg name).maxRetries + 1).toNat
  else 0

/-- The wire payload makeRequest serializes: the BYOK branch marshals an
OpenRouterRequest, every other branch marshals the plain Request. -/
inductive WirePayload where
  | plain (r : Request)
  | openRouter (r : OpenRouterRequest)
  deriving DecidableEq, Repr

/-- The payload-building head of makeRequest (and of both streaming request
functions): the OpenRouterRequest with the provider routing block is built
exactly when the target is "openrouter", its config exists, its BYOKConfig is
non-nil and enabled; otherwise the plain request is marshalled. -/
def buildRequestBody (cfgs : List (String × AIProviderConfig)) (req : Request)
    (provider : String) : WirePayload :=
  if provider == "openrouter" then
    match cfgs.lookup "openrouter" with
    | some config =>
      match config.byokConfig with
      | some bc =>
        if bc.enabled then
          WirePayload.openRouter
            { model := req.model
              messages := req.messages
              stream := req.stream
              provider := some
                { allowFallbacks := bc.allowFallbackToShared
                  order := bc.providerOrder } }
        else .plain req
      | none => .plain req
    | none => .plain req
  else .plain req

/-- The serialized `provider` field of a payload: a plain Request has none,
and an OpenRouterRequest with a nil pointer drops it (omitempty). -/
def payloadProviderField : WirePayload → Option OpenRouterProvider
  | .plain _ => none
  | .openRouter r => r.provider

/-- The serialized model/messages/stream triple of a payload. -/
def payloadTriple : WirePayload → String × List Message × Bool
  | .plain r => (r.model, r.messages, r.stream)
  | .openRouter r => (r.model, r.messages, r.stream)

/-- bufio ReadString-until-newline applied to the whole body: the completed
(newline-terminated) lines in order, without their terminators; data left at
end-of-input without a newline is returned together with io.EOF and the loop
breaks, so it never becomes a line. -/
def linesAux : List Char → List Char → List String
  | [], _ => []
  | c :: rest, acc =>
    if c = '\n' then String.mk acc.reverse :: linesAux rest []
    else linesAux rest (c :: acc)

/-- The lines the streaming loop reads from a response body. -/
def bodyLines (body : String) : List String :=
  linesAux body.data []

/-- What one run of the streaming loop did: the delta fragments printed in
arrival order, the final value assigned to `*capture` (`none` when the loop
returned before the assignment), the returned error, and the lines after the
point where the loop stopped reading. -/
structure StreamOutcome where
  emitted : List String
  capture : Option String
  error : Option String
  restLines : List String
  deriving DecidableEq, Repr

/-- The read loop of makeStreamingRequestWithCapture over the decoded lines,
with the accumulated capture text and emitted fragments so far: trim the
line, skip blanks and lines without the "data: " marker, stop successfully on
the "[DONE]" sentinel, skip unparseable data lines, return immediately on an
error envelope, and otherwise emit and accumulate a non-empty delta of the
first choice.  JSON parsing of a data line is the collaborator `parse`. -/
def streamLoop (parse : String → Option StreamingResponse) :
    List String → String → List String → StreamOutcome
  | [], acc, emitted => ⟨emitted, some acc, none, []⟩
  | rawLine :: rest, acc, emitted =>
    let line := trimSpace rawLine
    if line == "" then streamLoop parse rest acc emitted
    else if !hasPrefixStr line "data: " then streamLoop parse rest acc emitted
    else
      let data := trimPrefixStr line "data: "
      if data == "[DONE]" then ⟨emitted, some acc, none, rest⟩
      else
        match parse data with
        | none => streamLoop parse rest acc emitted
        | some streamResp =>
          match streamResp.error with
          | some apiErr => ⟨emitted, none, some ("API Error: " ++ apiErr.message), rest⟩
          | none =>
            match streamResp.choices with
            | [] => streamLoop parse rest acc emitted
            | choice :: _ =>
              let content := choice.delta.content
              if content == "" then streamLoop parse rest acc emitted
              else streamLoop parse rest (acc ++ content) (emitted ++ [content])

/-- func makeStreamingRequestWithCapture, from the response body onwards:
run the read loop on the body's lines with an empty accumulator. -/
def makeStreamingRequestWithCapture (parse : String → Option StreamingResponse)
    (body : String) : StreamOutcome :=
  streamLoop parse (bodyLines body) "" []

/-- Concatenation of a list of strings in order. -/
def joinAll : List String → String
  | [] => ""
  | s :: rest => s ++ joinAll rest

/-! ### Classifier lemmas -/

theorem classifyError_eq_specRules (err : Option String) (response : Option Response) :
    classifyError err response = classifySpecRules err response := by
  cases err with
  | none =>
    cases response with
    | none => rfl
    | some r =>
      obtain ⟨ch, er⟩ := r
      cases er with
      | none => rfl
      | some a =>
        by_cases h3 : (stringsContains a.type "rate_limit"
            || stringsContains a.message "rate limit"
            || stringsContains a.message "429") = true
        · simp [classifyError, classifySpecRules, h3]
        · simp [classifyError, classifySpecRules, h3]
  | some e =>
    by_cases h1 : (stringsContains e "timeout" || stringsContains e "deadline exceeded") = true
    · simp [classifyError, classifySpecRules, h1]
    · by_cases h2 : (stringsContains e "connection" || stringsContains e "network") = true
      · simp [classifyError, classifySpecRules, h1, h2]
      · cases response with
        | none => simp [classifyError, classifySpecRules, h1, h2]
        | some r =>
          obtain ⟨ch, er⟩ := r
          cases er with
          | none => simp [classifyError, classifySpecRules, h1, h2]
          | some a =>
            by_cases h3 : (stringsContains a.type "rate_limit"
                || stringsContains a.message "rate limit"
                || stringsContains a.message "429") = true
            · simp [classifyError, classifySpecRules, h1, h2, h3]
            · simp [classifyError, classifySpecRules, h1, h2, h3]

theorem classifyError_cases (err : Option String) (response : Option Response) :
    classifyError err response = "timeout" ∨ classifyError err response = "network"
      ∨ classifyError err response = "rate_limit" ∨ classifyError err response = "server_error"
      ∨ classifyError err response = "unknown" := by
  unfold classifyError
  split
  · simp
  · split
    · simp
    · cases response with
      | none => simp
      | some r =>
        obtain ⟨ch, er⟩ := r
        cases er with
        | none => simp
        | some a => by_cases h3 : (stringsContains a.type "rate_limit"
              || stringsContains a.message "rate limit"
              || stringsContains a.message "429") = true <;> simp [h3]

theorem classifyError_timeout_of_marker (e : String) (response : Option Response)
    (h : (stringsContains e "timeout" || stringsContains e "deadline exceeded") = true) :
    classifyError (some e) response = "timeout" := by
  unfold classifyError
  simp [h]

/-- C3: for every (transport error, envelope) pair the classifier is a pure
deterministic function agreeing with the spec's five-rule precedence chain,
it returns exactly one of the five categories, and a transport error whose
text carries a timeout/deadline marker classifies as `timeout` regardless of
any envelope content. -/
theorem claimC3_classifier_precedence :
    (∀ err response, classifyError err response = classifySpecRules err response) ∧
    (∀ err response, classifyError err response = "timeout"
      ∨ classifyError err response = "network"
      ∨ classifyError err response = "rate_limit"
      ∨ classifyError err response = "server_error"
      ∨ classifyError err response = "unknown") ∧
    (∀ err₁ err₂ response₁ response₂, err₁ = err₂ → response₁ = response₂ →
      classifyError err₁ response₁ = classifyError err₂ response₂) ∧
    (∀ e response, (stringsContains e "timeout" || stringsContains e "deadline exceeded") = true →
      classifyError (some e) response = "timeout") :=
  ⟨classifyError_eq_specRules, classifyError_cases,
    fun _ _ _ _ he hr => by rw [he, hr],
    classifyError_timeout_of_marker⟩

/-- Witness for C3: the classifier maps a concrete deadline-exceeded
transport error with a concrete rate-limit envelope to `timeout`. -/
theorem claimC3_classifier_precedence_witness :
    classifyError (some "context deadline exceeded")
      (some ⟨[], some ⟨"rate limit", "rate_limit"⟩⟩) = "timeout" :=
  claimC3_classifier_precedence.2.2.2 "context deadline exceeded"
    (some ⟨[], some ⟨"rate limit", "rate_limit"⟩⟩) (by decide)

/-! ### Priority resolver lemmas -/

theorem filter_orderedInsert_pri (p : Int) (a : String × Int) (l : List (String × Int)) :
    (l.orderedInsert priLe a).filter (fun x => x.2 == p) =
      if a.2 == p then a :: l.filter (fun x => x.2 == p)
      else l.filter (fun x => x.2 == p) := by
  induction l with
  | nil => simp [List.filter_cons]
  | cons b t ih =>
    by_cases hab : priLe a b
    · simp only [List.orderedInsert, if_pos hab, List.filter_cons]
    · have hlt : b.2 < a.2 := by
        simp only [priLe, not_le] at hab
        exact hab
      simp only [List.orderedInsert, if_neg hab, List.filter_cons]
      by_cases ha : (a.2 == p) = true
      · have hap : a.2 = p := by simpa using ha
        have hbp : (b.2 == p) = false := by
          simp only [beq_eq_false_iff_ne, ne_eq]
          omega
        simp [ih, ha, hbp]
      · simp [ih, ha]

theorem filter_insertionSort_pri (p : Int) (l : List (String × Int)) :
    (l.insertionSort priLe).filter (fun x => x.2 == p) = l.filter (fun x => x.2 == p) := by
  induction l with
  | nil => rfl
  | cons a t ih =>
    simp only [List.insertionSort, filter_orderedInsert_pri, ih, List.filter_cons]

theorem config_eq_of_nodup_keys {l : List (String × AIProviderConfig)}
    (hnd : (l.map Prod.fst).Nodup) {k : String} {a b : AIProviderConfig}
    (ha : (k, a) ∈ l) (hb : (k, b) ∈ l) : a = b := by
  induction l with
  | nil => cases ha
  | cons x t ih =>
    simp only [List.map_cons, List.nodup_cons] at hnd
    rcases List.mem_cons.mp ha with h1 | h1 <;> rcases List.mem_cons.mp hb with h2 | h2
    · rw [← h1] at h2
      exact congrArg Prod.snd h2.symm
    · subst h1
      exact absurd (List.mem_map.mpr ⟨(k, b), h2, rfl⟩) hnd.1
    · subst h2
      exact absurd (List.mem_map.mpr ⟨(k, a), h1, rfl⟩) hnd.1
    · exact ih hnd.2 h1 h2

theorem mem_getOrderedProviders (cfgs : List (String × AIProviderConfig)) (name : String) :
    name ∈ getOrderedProviders cfgs ↔ ∃ c, (name, c) ∈ cfgs ∧ c.enabled = true := by
  unfold getOrderedProviders orderedPairs enabledPriorities
  rw [List.mem_map]
  constructor
  · rintro ⟨pr, hpr, rfl⟩
    rw [List.mem_insertionSort, List.mem_map] at hpr
    obtain ⟨q, hq, rfl⟩ := hpr
    rw [List.mem_filter] at hq
    exact ⟨q.2, hq.1, hq.2⟩
  · rintro ⟨c, hmem, hen⟩
    refine ⟨(name, c.priority), ?_, rfl⟩
    rw [List.mem_insertionSort, List.mem_map]
    exact ⟨(name, c), List.mem_filter.mpr ⟨hmem, hen⟩, rfl⟩

/-- C4: the priority resolver returns exactly the names of the enabled
providers, sorted ascending by priority; equal priorities keep their stable
map-iteration relative order (the sort the source executes is stable);
disabled providers never appear regardless of priority; and when no provider
is enabled the result is the empty list, not an error. -/
theorem claimC4_priority_resolver (cfgs : List (String × AIProviderConfig)) :
    (∀ name, name ∈ getOrderedProviders cfgs ↔ ∃ c, (name, c) ∈ cfgs ∧ c.enabled = true) ∧
    List.Sorted priLe (orderedPairs cfgs) ∧
    (∀ p : Int, (orderedPairs cfgs).filter (fun x => x.2 == p) =
      (enabledPriorities cfgs).filter (fun x => x.2 == p)) ∧
    ((cfgs.map Prod.fst).Nodup → ∀ name c, (name, c) ∈ cfgs → c.enabled = false →
      name ∉ getOrderedProviders cfgs) ∧
    ((∀ pr ∈ cfgs, pr.2.enabled = false) → getOrderedProviders cfgs = []) := by
  refine ⟨mem_getOrderedProviders cfgs,
    List.sorted_insertionSort priLe (enabledPriorities cfgs),
    fun p => filter_insertionSort_pri p (enabledPriorities cfgs),
    ?_, ?_⟩
  · intro hnd name c hmem hdis hin
    obtain ⟨c', hmem', hen'⟩ := (mem_getOrderedProviders cfgs name).mp hin
    rw [config_eq_of_nodup_keys hnd hmem hmem'] at hdis
    rw [hdis] at hen'
    cases hen'
  · intro hall
    have hfil : cfgs.filter (fun p => p.2.enabled) = [] := by
      rw [List.filter_eq_nil_iff]
      intro a ha
      simp [hall a ha]
    unfold getOrderedProviders orderedPairs enabledPriorities
    rw [hfil]
    rfl

/-- Witness for C4 at a concrete three-provider policy set: the enabled
provider appears in the resolved order, the disabled one does not. -/
theorem claimC4_priority_resolver_witness :
    ("openrouter" ∈ getOrderedProviders
        [("gemini", ⟨2, true, 2, none⟩), ("openrouter", ⟨1, true, 2, none⟩),
          ("groq", ⟨3, false, 2, none⟩)]) ∧
    ("groq" ∉ getOrderedProviders
        [("gemini", ⟨2, true, 2, none⟩), ("openrouter", ⟨1, true, 2, none⟩),
          ("groq", ⟨3, false, 2, none⟩)]) :=
  ⟨(claimC4_priority_resolver _).1 "openrouter" |>.mpr ⟨⟨1, true, 2, none⟩, by decide, rfl⟩,
    (claimC4_priority_resolver _).2.2.2.1 (by decide) "groq" ⟨3, false, 2, none⟩ (by decide) rfl⟩

/-! ### Request builder (BYOK) -/

/-- C7: for a chat request to the aggregator provider "openrouter" with an
existing, enabled BYOK config, the payload carries a provider field with the
configured sub-provider order and allow-fallbacks flag verbatim; in every
other situation (BYOK absent, BYOK disabled, no openrouter config, or a
different provider) the payload is the plain request with no provider field;
and in all cases the model/messages/stream triple comes from the caller's
request. -/
theorem claimC7_byok_payload (cfgs : List (String × AIProviderConfig)) (req : Request) :
    (∀ config bc, cfgs.lookup "openrouter" = some config → config.byokConfig = some bc →
      bc.enabled = true →
      buildRequestBody cfgs req "openrouter" = WirePayload.openRouter
        { model := req.model
          messages := req.messages
          stream := req.stream
          provider := some
            { allowFallbacks := bc.allowFallbackToShared
              order := bc.providerOrder } }) ∧
    (∀ provider, provider ≠ "openrouter" →
      buildRequestBody cfgs req provider = WirePayload.plain req ∧
      payloadProviderField (buildRequestBody cfgs req provider) = none) ∧
    (∀ config, cfgs.lookup "openrouter" = some config → config.byokConfig = none →
      buildRequestBody cfgs req "openrouter" = WirePayload.plain req) ∧
    (∀ config bc, cfgs.lookup "openrouter" = some config → config.byokConfig = some bc →
      bc.enabled = false →
      buildRequestBody cfgs req "openrouter" = WirePayload.plain req) ∧
    (cfgs.lookup "openrouter" = none →
      buildRequestBody cfgs req "openrouter" = WirePayload.plain req) ∧
    (∀ provider,
      payloadTriple (buildRequestBody cfgs req provider) = (req.model, req.messages, req.stream)) := by
  refine ⟨?_, ?_, ?_, ?_, ?_, ?_⟩
  · intro config bc hc hb hen
    simp [buildRequestBody, hc, hb, hen]
  · intro provider hne
    have hbeq : (provider == "openrouter") = false := by
      simpa using hne
    constructor
    · simp [buildRequestBody, hbeq]
    · simp [buildRequestBody, hbeq, payloadProviderField]
  · intro config hc hb
    simp [buildRequestBody, hc, hb]
  · intro config bc hc hb hen
    simp [buildRequestBody, hc, hb, hen]
  · intro hc
    simp [buildRequestBody, hc]
  · intro provider
    by_cases hp : (provider == "openrouter") = true
    · cases hl : cfgs.lookup "openrouter" with
      | none => simp [buildRequestBody, hp, hl, payloadTriple]
      | some config =>
        cases hb : config.byokConfig with
        | none => simp [buildRequestBody, hp, hl, hb, payloadTriple]
        | some bc =>
          by_cases hen : bc.enabled = true
          · simp [buildRequestBody, hp, hl, hb, hen, payloadTriple]
          · simp only [Bool.not_eq_true] at hen
            simp [buildRequestBody, hp, hl, hb, hen, payloadTriple]
    · simp only [Bool.not_eq_true] at hp
      simp [buildRequestBody, hp, payloadTriple]

/-- Witness for C7: a concrete enabled BYOK config yields the payload with
the routing block verbatim, and a non-aggregator provider yields the plain
payload. -/
theorem claimC7_byok_payload_witness :
    buildRequestBody
        [("openrouter", ⟨1, true, 2, some ⟨true, ["deepseek", "qwen"], false, []⟩⟩)]
        ⟨"m1", [⟨"user", "hi"⟩], true⟩ "openrouter" = WirePayload.openRouter
          ⟨"m1", [⟨"user", "hi"⟩], true, some ⟨false, ["deepseek", "qwen"]⟩⟩ ∧
    buildRequestBody
        [("openrouter", ⟨1, true, 2, some ⟨true, ["deepseek", "qwen"], false, []⟩⟩)]
        ⟨"m1", [⟨"user", "hi"⟩], true⟩ "gemini" = WirePayload.plain ⟨"m1", [⟨"user", "hi"⟩], true⟩ :=
  ⟨(claimC7_byok_payload _ _).1 ⟨1, true, 2, some ⟨true, ["deepseek", "qwen"], false, []⟩⟩
      ⟨true, ["deepseek", "qwen"], false, []⟩ (by decide) rfl rfl,
    ((claimC7_byok_payload _ _).2.1 "gemini" (by decide)).1⟩

/-! ### Streaming decoder lemmas -/

theorem joinAll_cons (s : String) (l : List String) : joinAll (s :: l) = s ++ joinAll l := rfl

theorem ne_empty_of_dataPrefix (s : String) (h : hasPrefixStr s "data: " = true) :
    (s == "") = false := by
  rw [beq_eq_false_iff_ne]
  intro he
  rw [he] at h
  exact absurd h (by decide)

theorem streamLoop_invariant (parse : String → Option StreamingResponse) :
    ∀ (lines : List String) (acc : String) (emitted : List String),
      ∃ tail : List String,
        (streamLoop parse lines acc emitted).emitted = emitted ++ tail ∧
        (((streamLoop parse lines acc emitted).capture = some (acc ++ joinAll tail) ∧
            (streamLoop parse lines acc emitted).error = none) ∨
          ((streamLoop parse lines acc emitted).capture = none ∧
            (streamLoop parse lines acc emitted).error.isSome = true)) := by
  intro lines
  induction lines with
  | nil =>
    intro acc emitted
    exact ⟨[], by simp [streamLoop], Or.inl ⟨by simp [streamLoop, joinAll, String.append_empty], rfl⟩⟩
  | cons rawLine rest ih =>
    intro acc emitted
    by_cases hblank : (trimSpace rawLine == "") = true
    · simpa [streamLoop, hblank] using ih acc emitted
    · by_cases hpre : hasPrefixStr (trimSpace rawLine) "data: " = true
      · by_cases hdone : (trimPrefixStr (trimSpace rawLine) "data: " == "[DONE]") = true
        · refine ⟨[], ?_, Or.inl ⟨?_, ?_⟩⟩ <;>
            simp [streamLoop, hblank, hpre, hdone, String.append_empty, joinAll]
        · cases hparse : parse (trimPrefixStr (trimSpace rawLine) "data: ") with
          | none => simpa [streamLoop, hblank, hpre, hdone, hparse] using ih acc emitted
          | some sr =>
            cases herr : sr.error with
            | some apiErr =>
              refine ⟨[], ?_, Or.inr ⟨?_, ?_⟩⟩ <;>
                simp [streamLoop, hblank, hpre, hdone, hparse, herr]
            | none =>
              cases hch : sr.choices with
              | nil => simpa [streamLoop, hblank, hpre, hdone, hparse, herr, hch] using ih acc emitted
              | cons choice more =>
                by_cases hcon : (choice.delta.content == "") = true
                · simpa [streamLoop, hblank, hpre, hdone, hparse, herr, hch, hcon] using
                    ih acc emitted
                · obtain ⟨tail, htail, hcap⟩ :=
                    ih (acc ++ choice.delta.content) (emitted ++ [choice.delta.content])
                  refine ⟨choice.delta.content :: tail, ?_, ?_⟩
                  · rw [show streamLoop parse (rawLine :: rest) acc emitted =
                        streamLoop parse rest (acc ++ choice.delta.content)
                          (emitted ++ [choice.delta.content]) from by
                      simp [streamLoop, hblank, hpre, hdone, hparse, herr, hch, hcon]]
                    rw [htail, List.append_assoc]
                    rfl
                  · rw [show streamLoop parse (rawLine :: rest) acc emitted =
                        streamLoop parse rest (acc ++ choice.delta.content)
                          (emitted ++ [choice.delta.content]) from by
                      simp [streamLoop, hblank, hpre, hdone, hparse, herr, hch, hcon]]
                    rcases hcap with ⟨hc, he⟩ | hfail
                    · exact Or.inl ⟨by rw [hc, joinAll_cons, String.append_assoc], he⟩
                    · exact Or.inr hfail
      · simpa [streamLoop, hblank, hpre] using ih acc emitted

theorem linesAux_no_newline (t : List Char) (h : ∀ c ∈ t, c ≠ '\n') :
    ∀ acc, linesAux t acc = [] := by
  induction t with
  | nil => intro acc; rfl
  | cons c rest ih =>
    intro acc
    have hc : c ≠ '\n' := h c (List.mem_cons_self c rest)
    simp only [linesAux, if_neg hc]
    exact ih (fun d hd => h d (List.mem_cons_of_mem c hd)) (c :: acc)

theorem linesAux_append_no_newline (t : List Char) (h : ∀ c ∈ t, c ≠ '\n') :
    ∀ (cs : List Char) (acc : List Char), linesAux (cs ++ t) acc = linesAux cs acc := by
  intro cs
  induction cs with
  | nil =>
    intro acc
    rw [List.nil_append]
    exact linesAux_no_newline t h acc
  | cons c rest ih =>
    intro acc
    by_cases hc : c = '\n'
    · simp only [List.cons_append, linesAux, if_pos hc, List.append_eq, ih]
    · simp only [List.cons_append, linesAux, if_neg hc, List.append_eq, ih]

/-- C8: a data line that parses to a fragment with a non-nil error envelope
makes the streaming decoder stop at once: the outcome carries that error's
message, no line after it is read (they are returned untouched), no further
fragment is emitted beyond what was already emitted, and the capture value is
never assigned. -/
theorem claimC8_stream_error_stops (parse : String → Option StreamingResponse)
    (rawLine : String) (rest : List String) (acc : String) (emitted : List String)
    (sr : StreamingResponse) (apiErr : APIError)
    (hpre : hasPrefixStr (trimSpace rawLine) "data: " = true)
    (hdone : (trimPrefixStr (trimSpace rawLine) "data: " == "[DONE]") = false)
    (hparse : parse (trimPrefixStr (trimSpace rawLine) "data: ") = some sr)
    (herr : sr.error = some apiErr) :
    streamLoop parse (rawLine :: rest) acc emitted =
      ⟨emitted, none, some ("API Error: " ++ apiErr.message), rest⟩ := by
  have hne := ne_empty_of_dataPrefix (trimSpace rawLine) hpre
  simp [streamLoop, hne, hpre, hdone, hparse, herr]

/-- Witness for C8: a concrete stream whose second data line carries an error
envelope stops with that error, leaving the third line unread. -/
theorem claimC8_stream_error_stops_witness :
    streamLoop
        (fun s => if s == "E" then some ⟨[], some ⟨"boom", "server_error"⟩⟩ else none)
        ["data: E", "data: X"] "" [] =
      ⟨[], none, some ("API Error: " ++ "boom"), ["data: X"]⟩ :=
  claimC8_stream_error_stops _ "data: E" ["data: X"] "" []
    ⟨[], some ⟨"boom", "server_error"⟩⟩ ⟨"boom", "server_error"⟩
    (by decide) (by decide) (by decide) rfl

/-- C9: the capturing streaming decoder's final accumulated string equals the
concatenation in arrival order of exactly the fragments it emitted; blank
lines, lines without the data marker, and unparseable data lines are skipped
without affecting the state; a "[DONE]" sentinel line terminates the stream
successfully (the body being the concatenation of arbitrary read chunks, so
a sentinel split across chunks behaves identically); and end-of-input without
the sentinel is also a successful termination. -/
theorem claimC9_stream_accumulation (parse : String → Option StreamingResponse) :
    (∀ chunks : List String,
      (makeStreamingRequestWithCapture parse (joinAll chunks)).error = none →
      (makeStreamingRequestWithCapture parse (joinAll chunks)).capture =
        some (joinAll (makeStreamingRequestWithCapture parse (joinAll chunks)).emitted)) ∧
    (∀ rawLine rest acc emitted, (trimSpace rawLine == "") = true →
      streamLoop parse (rawLine :: rest) acc emitted = streamLoop parse rest acc emitted) ∧
    (∀ rawLine rest acc emitted, (trimSpace rawLine == "") = false →
      hasPrefixStr (trimSpace rawLine) "data: " = false →
      streamLoop parse (rawLine :: rest) acc emitted = streamLoop parse rest acc emitted) ∧
    (∀ rawLine rest acc emitted, hasPrefixStr (trimSpace rawLine) "data: " = true →
      (trimPrefixStr (trimSpace rawLine) "data: " == "[DONE]") = false →
      parse (trimPrefixStr (trimSpace rawLine) "data: ") = none →
      streamLoop parse (rawLine :: rest) acc emitted = streamLoop parse rest acc emitted) ∧
    (∀ rawLine rest acc emitted, hasPrefixStr (trimSpace rawLine) "data: " = true →
      (trimPrefixStr (trimSpace rawLine) "data: " == "[DONE]") = true →
      streamLoop parse (rawLine :: rest) acc emitted =
        ⟨emitted, some acc, none, rest⟩) ∧
    (∀ acc emitted, streamLoop parse [] acc emitted = ⟨emitted, some acc, none, []⟩) := by
  refine ⟨?_, ?_, ?_, ?_, ?_, ?_⟩
  · intro chunks herr
    obtain ⟨tail, htail, hcap⟩ :=
      streamLoop_invariant parse (bodyLines (joinAll chunks)) "" []
    have herr' : (streamLoop parse (bodyLines (joinAll chunks)) "" []).error = none := herr
    rcases hcap with ⟨hc, _⟩ | ⟨_, hsome⟩
    · show (streamLoop parse (bodyLines (joinAll chunks)) "" []).capture =
        some (joinAll (streamLoop parse (bodyLines (joinAll chunks)) "" []).emitted)
      rw [hc, htail, List.nil_append, String.empty_append]
    · rw [herr'] at hsome
      cases hsome
  · intro rawLine rest acc emitted hblank
    simp [streamLoop, hblank]
  · intro rawLine rest acc emitted hblank hpre
    simp [streamLoop, hblank, hpre]
  · intro rawLine rest acc emitted hpre hdone hparse
    have hne := ne_empty_of_dataPrefix (trimSpace rawLine) hpre
    simp [streamLoop, hne, hpre, hdone, hparse]
  · intro rawLine rest acc emitted hpre hdone
    have hne := ne_empty_of_dataPrefix (trimSpace rawLine) hpre
    simp [streamLoop, hne, hpre, hdone]
  · intro acc emitted
    rfl

/-- Witness for C9: a concrete stream whose sentinel line is split across
three read chunks accumulates exactly the concatenation of its emitted
fragments. -/
theorem claimC9_stream_accumulation_witness :
    (makeStreamingRequestWithCapture
        (fun s => if s == "F1" then some ⟨[⟨⟨"Hello"⟩⟩], none⟩ else none)
        (joinAll ["data: F", "1\ndata: [D", "ONE]\n"])).capture =
      some (joinAll (makeStreamingRequestWithCapture
        (fun s => if s == "F1" then some ⟨[⟨⟨"Hello"⟩⟩], none⟩ else none)
        (joinAll ["data: F", "1\ndata: [D", "ONE]\n"])).emitted) :=
  (claimC9_stream_accumulation _).1 ["data: F", "1\ndata: [D", "ONE]\n"] (by decide)

/-- C10: a final data line not terminated by a newline before end-of-input is
discarded whole: appending any newline-free tail to a body does not change
the decoder's outcome, and a body that is only such an unterminated line
emits nothing, accumulates the empty capture and ends as a normal success. -/
theorem claimC10_unterminated_line_discarded (parse : String → Option StreamingResponse)
    (body t : String) (h : ∀ c ∈ t.data, c ≠ '\n') :
    makeStreamingRequestWithCapture parse (body ++ t) =
      makeStreamingRequestWithCapture parse body ∧
    makeStreamingRequestWithCapture parse t = ⟨[], some "", none, []⟩ := by
  have hlines : bodyLines (body ++ t) = bodyLines body := by
    unfold bodyLines
    rw [String.data_append]
    exact linesAux_append_no_newline t.data h body.data []
  have hlt : bodyLines t = [] := by
    unfold bodyLines
    exact linesAux_no_newline t.data h []
  constructor
  · unfold makeStreamingRequestWithCapture
    rw [hlines]
  · unfold makeStreamingRequestWithCapture
    rw [hlt]
    rfl

/-- Witness for C10: appending a concrete unterminated data line leaves the
decoding of the terminated part unchanged. -/
theorem claimC10_unterminated_line_discarded_witness :
    makeStreamingRequestWithCapture (fun _ => none) ("ping\n" ++ "data: tail") =
      makeStreamingRequestWithCapture (fun _ => none) "ping\n" :=
  (claimC10_unterminated_line_discarded (fun _ => none) "ping\n" "data: tail" (by decide)).1

/-! ### Retry loop lemmas -/

theorem shouldContinue_false_imp (et : String) (retry : Nat) (mr : Int)
    (h : shouldContinue et retry mr = false) : ¬ ((retry : Int) < mr) := by
  unfold shouldContinue at h
  split at h
  · simpa using h
  · split at h
    · simpa using h
    · split at h
      · simpa using h
      · cases h

theorem retryLoop_trace_length (o : Oracle) (name : String) (mr : Int) :
    ∀ (l : List Nat) (le : Option String), (retryLoop o name mr le l).1.length ≤ l.length := by
  intro l
  induction l with
  | nil => intro le; simp [retryLoop]
  | cons retry rest ih =>
    intro le
    simp only [retryLoop]
    split
    · split
      · simp
      · split
        · simpa using ih _
        · simp
    · split
      · simpa using ih _
      · simp

theorem retryLoop_trace_names (o : Oracle) (name : String) (mr : Int) :
    ∀ (l : List Nat) (le : Option String),
      ∀ e ∈ (retryLoop o name mr le l).1, e.provider = name := by
  intro l
  induction l with
  | nil => intro le e he; simp [retryLoop] at he
  | cons retry rest ih =>
    intro le e he
    simp only [retryLoop] at he
    split at he
    · split at he
      · simp at he
        rw [he]
      · split at he
        · simp at he
          rcases he with he | he
          · rw [he]
          · exact ih _ e he
        · simp at he
          rw [he]
    · split at he
      · simp at he
        rcases he with he | he
        · rw [he]
        · exact ih _ e he
      · simp at he
        rw [he]

theorem retryLoop_cons_head (o : Oracle) (name : String) (mr : Int)
    (retry : Nat) (rest : List Nat) (le : Option String) :
    ∃ tl, (retryLoop o name mr le (retry :: rest)).1 =
      (⟨name, retry, (makeRequest o name retry).networkCalled⟩ : TraceEntry) :: tl := by
  simp only [retryLoop]
  split
  · split
    · exact ⟨[], rfl⟩
    · split
      · exact ⟨_, rfl⟩
      · exact ⟨[], rfl⟩
  · split
    · exact ⟨_, rfl⟩
    · exact ⟨[], rfl⟩

theorem retryIndices_length (mr : Int) :
    (retryIndices mr).length = (mr + 1).toNat := by
  simp [retryIndices]

theorem fallbackLoop_trace_length (o : Oracle) (reg : Registry) :
    ∀ (names attempted : List String) (le : Option String),
      (fallbackLoop o reg attempted le names).1.length ≤
        (names.map (providerBudget reg)).sum := by
  intro names
  induction names with
  | nil => intro attempted le; simp [fallbackLoop]
  | cons name rest ih =>
    intro attempted le
    simp only [List.map_cons, List.sum_cons]
    by_cases hat : attempted.contains name = true
    · simp only [fallbackLoop, hat, if_true]
      exact le_trans (ih _ _) (Nat.le_add_left _ _)
    · simp only [Bool.not_eq_true] at hat
      by_cases hen : (lookupConfig reg name).enabled = true
      · by_cases hk : ((reg.providers name).apiKey == "") = true
        · simp only [fallbackLoop, hat, Bool.false_eq_true, if_false, hen, Bool.not_true,
            Bool.false_eq_true, if_false, hk, if_true]
          exact le_trans (ih _ _) (Nat.le_add_left _ _)
        · simp only [Bool.not_eq_true] at hk
          have hbud : providerBudget reg name = ((lookupConfig reg name).maxRetries + 1).toNat := by
            simp [providerBudget, hen, hk]
          have hlen := retryLoop_trace_length o name (lookupConfig reg name).maxRetries
            (retryIndices (lookupConfig reg name).maxRetries) le
          rw [retryIndices_length] at hlen
          simp only [fallbackLoop, hat, Bool.false_eq_true, if_false, hen, Bool.not_true,
            Bool.false_eq_true, hk, if_false]
          rcases hres : retryLoop o name (lookupConfig reg name).maxRetries le
              (retryIndices (lookupConfig reg name).maxRetries) with ⟨tr, outc⟩
          rw [hres] at hlen
          cases outc with
          | success response =>
            simp only []
            rw [hbud]
            exact le_trans hlen (Nat.le_add_right _ _)
          | exhausted le2 =>
            simp only [List.length_append]
            rw [hbud]
            exact Nat.add_le_add (by simpa using hlen) (ih _ _)
      · simp only [Bool.not_eq_true] at hen
        simp only [fallbackLoop, hat, Bool.false_eq_true, if_false, hen, Bool.not_false, if_true]
        exact le_trans (ih _ _) (Nat.le_add_left _ _)

/-- C2: the fallback dispatch is a total function that performs at most
maxRetries+1 attempts per enabled provider with a non-empty credential
(summed over the resolved provider order) and returns either a successful
response or the combined all-providers-failed error. -/
theorem claimC2_dispatch_terminates (o : Oracle) (reg : Registry) :
    (makeRequestWithFallback o reg).1.length ≤
      ((getOrderedProviders reg.providerCfgs).map (providerBudget reg)).sum ∧
    ((∃ r n, (makeRequestWithFallback o reg).2 = FallbackResult.success r n) ∨
      ∃ le, (makeRequestWithFallback o reg).2 = FallbackResult.allFailed le) := by
  constructor
  · exact fallbackLoop_trace_length o reg _ [] none
  · rcases h : (makeRequestWithFallback o reg).2 with _ | _
    · exact Or.inl ⟨_, _, rfl⟩
    · exact Or.inr ⟨_, rfl⟩

theorem retryLoop_success_head (o : Oracle) (name : String) (mr : Int)
    (retry : Nat) (rest : List Nat) (le : Option String) (r : Response)
    (hmars : o.marshalErr name = none)
    (hnet : o.net name retry = Except.ok r)
    (hok : (match r.error with | some a => a.message == "" | none => true) = true) :
    retryLoop o name mr le (retry :: rest) =
      ([⟨name, retry, true⟩], RetryOutcome.success r) := by
  have hmk : makeRequest o name retry = ⟨true, Except.ok r⟩ := by
    simp [makeRequest, hmars, hnet]
  simp [retryLoop, hmk, hok]

theorem retryLoop_const_fail_ok (o : Oracle) (name : String) (mr : Int) (r : Response)
    (hmars : o.marshalErr name = none)
    (hnet : ∀ k, o.net name k = Except.ok r)
    (hfail : (match r.error with | some a => a.message == "" | none => true) = false) :
    ∀ (c s : Nat), (s : Int) + c = mr + 1 → ∀ le,
      retryLoop o name mr le (List.range' s c) =
        ((List.range' s c).map (fun k => (⟨name, k, true⟩ : TraceEntry)),
          RetryOutcome.exhausted (if c = 0 then le
            else some ("provider " ++ name ++ ": " ++ combineErrors none (some r)))) := by
  intro c
  induction c with
  | zero => intro s hs le; simp [retryLoop]
  | succ c ih =>
    intro s hs le
    have hr : List.range' s (c + 1) = s :: List.range' (s + 1) c := rfl
    have hmk : makeRequest o name s = ⟨true, Except.ok r⟩ := by
      simp [makeRequest, hmars, hnet]
    rw [hr]
    by_cases hsc : shouldContinue (classifyError none (some r)) s mr = true
    · simp only [retryLoop, hmk, hfail, Bool.false_eq_true, if_false, hsc, if_true]
      rw [ih (s + 1) (by push_cast at hs ⊢; omega)
        (some ("provider " ++ name ++ ": " ++ combineErrors none (some r)))]
      simp only [List.map_cons]
      refine congrArg _ ?_
      refine congrArg RetryOutcome.exhausted ?_
      cases c with
      | zero => simp
      | succ c2 => simp
    · have hge := shouldContinue_false_imp _ _ _ (by simpa using hsc)
      have hc0 : c = 0 := by push_cast at hs; omega
      subst hc0
      simp only [Bool.not_eq_true] at hsc
      simp only [retryLoop, hmk, hfail, Bool.false_eq_true, if_false, hsc]
      simp [List.range']

theorem retryLoop_const_fail_marshal (o : Oracle) (name : String) (mr : Int) (e : String)
    (hmars : o.marshalErr name = some e) :
    ∀ (c s : Nat), (s : Int) + c = mr + 1 → ∀ le,
      retryLoop o name mr le (List.range' s c) =
        ((List.range' s c).map (fun k => (⟨name, k, false⟩ : TraceEntry)),
          RetryOutcome.exhausted (if c = 0 then le
            else some ("provider " ++ name ++ ": " ++ combineErrors (some e) none))) := by
  intro c
  induction c with
  | zero => intro s hs le; simp [retryLoop]
  | succ c ih =>
    intro s hs le
    have hr : List.range' s (c + 1) = s :: List.range' (s + 1) c := rfl
    have hmk : makeRequest o name s = ⟨false, Except.error e⟩ := by
      simp [makeRequest, hmars]
    rw [hr]
    by_cases hsc : shouldContinue (classifyError (some e) none) s mr = true
    · simp only [retryLoop, hmk, hsc, if_true]
      rw [ih (s + 1) (by push_cast at hs ⊢; omega)
        (some ("provider " ++ name ++ ": " ++ combineErrors (some e) none))]
      simp only [List.map_cons]
      refine congrArg _ ?_
      refine congrArg RetryOutcome.exhausted ?_
      cases c with
      | zero => simp
      | succ c2 => simp
    · have hge := shouldContinue_false_imp _ _ _ (by simpa using hsc)
      have hc0 : c = 0 := by push_cast at hs; omega
      subst hc0
      simp only [Bool.not_eq_true] at hsc
      simp only [retryLoop, hmk, hsc]
      simp [List.range']

/-! ### Fallback loop step lemmas -/

theorem fallbackLoop_nil (o : Oracle) (reg : Registry) (attempted : List String)
    (le : Option String) :
    fallbackLoop o reg attempted le [] = ([], FallbackResult.allFailed le) := rfl

theorem fallbackLoop_skip_attempted (o : Oracle) (reg : Registry) (attempted : List String)
    (le : Option String) (name : String) (rest : List String)
    (hat : attempted.contains name = true) :
    fallbackLoop o reg attempted le (name :: rest) =
      fallbackLoop o reg attempted le rest := by
  simp only [fallbackLoop, hat, if_true]

theorem fallbackLoop_skip_disabled (o : Oracle) (reg : Registry) (attempted : List String)
    (le : Option String) (name : String) (rest : List String)
    (hat : attempted.contains name = false)
    (hen : (lookupConfig reg name).enabled = false) :
    fallbackLoop o reg attempted le (name :: rest) =
      fallbackLoop o reg (name :: attempted) le rest := by
  simp only [fallbackLoop, hat, Bool.false_eq_true, if_false, hen, Bool.not_false, if_true]

theorem fallbackLoop_skip_key (o : Oracle) (reg : Registry) (attempted : List String)
    (le : Option String) (name : String) (rest : List String)
    (hat : attempted.contains name = false)
    (hen : (lookupConfig reg name).enabled = true)
    (hk : ((reg.providers name).apiKey == "") = true) :
    fallbackLoop o reg attempted le (name :: rest) =
      fallbackLoop o reg (name :: attempted) le rest := by
  simp only [fallbackLoop, hat, Bool.false_eq_true, if_false, hen, Bool.not_true, hk, if_true]

theorem fallbackLoop_run (o : Oracle) (reg : Registry) (attempted : List String)
    (le : Option String) (name : String) (rest : List String)
    (hat : attempted.contains name = false)
    (hen : (lookupConfig reg name).enabled = true)
    (hk : ((reg.providers name).apiKey == "") = false) :
    fallbackLoop o reg attempted le (name :: rest) =
      match retryLoop o name (lookupConfig reg name).maxRetries le
          (retryIndices (lookupConfig reg name).maxRetries) with
      | (tr, RetryOutcome.success response) => (tr, FallbackResult.success response name)
      | (tr, RetryOutcome.exhausted le2) =>
        (tr ++ (fallbackLoop o reg (name :: attempted) le2 rest).1,
          (fallbackLoop o reg (name :: attempted) le2 rest).2) := by
  simp only [fallbackLoop, hat, Bool.false_eq_true, if_false, hen, Bool.not_true, hk]

theorem getOrdered_two (n1 n2 : String) (c1 c2 : AIProviderConfig)
    (h1 : c1.enabled = true) (h2 : c2.enabled = true) (hp : c1.priority ≤ c2.priority) :
    getOrderedProviders [(n1, c1), (n2, c2)] = [n1, n2] := by
  unfold getOrderedProviders orderedPairs enabledPriorities
  simp [List.filter_cons, h1, h2, List.insertionSort, List.orderedInsert, priLe, hp]

/-- C1: with a higher-priority provider that always fails with a rate-limit
error envelope and a lower-priority provider that succeeds, the dispatch
attempts the first provider exactly maxRetries+1 times, then moves to the
second and returns its response together with its name after a single
attempt; success of an attempt is no transport error and (no error envelope
or an empty envelope message), and on success the orchestrator returns at
once. -/
theorem claimC1_retry_then_fallback
    (o : Oracle) (reg : Registry) (n1 n2 : String) (c1 c2 : AIProviderConfig)
    (r1 r2 : Response) (a1 : APIError)
    (hne : (n2 == n1) = false)
    (hcfgs : reg.providerCfgs = [(n1, c1), (n2, c2)])
    (h1 : c1.enabled = true) (h2 : c2.enabled = true)
    (hp : c1.priority ≤ c2.priority)
    (hmr1 : 0 ≤ c1.maxRetries) (hmr2 : 0 ≤ c2.maxRetries)
    (hk1 : ((reg.providers n1).apiKey == "") = false)
    (hk2 : ((reg.providers n2).apiKey == "") = false)
    (hm1 : o.marshalErr n1 = none) (hm2 : o.marshalErr n2 = none)
    (hn1 : ∀ k, o.net n1 k = Except.ok r1)
    (he1 : r1.error = some a1) (hmsg : (a1.message == "") = false)
    (hrl : classifyError none (some r1) = "rate_limit")
    (hn2 : o.net n2 0 = Except.ok r2)
    (hok : (match r2.error with | some a => a.message == "" | none => true) = true) :
    makeRequestWithFallback o reg =
      ((List.range' 0 (c1.maxRetries + 1).toNat).map
          (fun k => (⟨n1, k, true⟩ : TraceEntry)) ++ [⟨n2, 0, true⟩],
        FallbackResult.success r2 n2) ∧
    attemptsOn (makeRequestWithFallback o reg).1 n1 = (c1.maxRetries + 1).toNat ∧
    attemptsOn (makeRequestWithFallback o reg).1 n2 = 1 := by
  have hfail1 : (match r1.error with | some a => a.message == "" | none => true) = false := by
    rw [he1]
    exact hmsg
  have hord : getOrderedProviders reg.providerCfgs = [n1, n2] := by
    rw [hcfgs]
    exact getOrdered_two n1 n2 c1 c2 h1 h2 hp
  have hlk1 : lookupConfig reg n1 = c1 := by
    simp [lookupConfig, hcfgs, List.lookup]
  have hlk2 : lookupConfig reg n2 = c2 := by
    simp [lookupConfig, hcfgs, List.lookup, hne]
  have hc1nat : (c1.maxRetries + 1).toNat = c1.maxRetries.toNat + 1 := by omega
  have hc2nat : (c2.maxRetries + 1).toNat = c2.maxRetries.toNat + 1 := by omega
  have hct : ([n1].contains n2) = false := by
    simp only [List.contains_cons, hne, List.contains_nil, Bool.or_false]
  have hle2 : (if (c1.maxRetries + 1).toNat = 0 then (none : Option String)
      else some ("provider " ++ n1 ++ ": " ++ combineErrors none (some r1))) =
      some ("provider " ++ n1 ++ ": " ++ combineErrors none (some r1)) := by
    rw [if_neg]
    omega
  have hrun1 := retryLoop_const_fail_ok o n1 c1.maxRetries r1 hm1 hn1 hfail1
    (c1.maxRetries + 1).toNat 0 (by push_cast; omega) none
  rw [hle2] at hrun1
  have hr2idx : retryIndices c2.maxRetries = 0 :: List.range' 1 c2.maxRetries.toNat := by
    rw [retryIndices, hc2nat]
    rfl
  have hrun2 := retryLoop_success_head o n2 c2.maxRetries 0 (List.range' 1 c2.maxRetries.toNat)
    (some ("provider " ++ n1 ++ ": " ++ combineErrors none (some r1))) r2 hm2 hn2 hok
  have hmain : makeRequestWithFallback o reg =
      ((List.range' 0 (c1.maxRetries + 1).toNat).map
          (fun k => (⟨n1, k, true⟩ : TraceEntry)) ++ [⟨n2, 0, true⟩],
        FallbackResult.success r2 n2) := by
    rw [show makeRequestWithFallback o reg =
        fallbackLoop o reg [] none (getOrderedProviders reg.providerCfgs) from rfl, hord]
    rw [fallbackLoop_run o reg [] none n1 [n2] rfl (by rw [hlk1]; exact h1) hk1]
    rw [hlk1, show retryIndices c1.maxRetries =
        List.range' 0 (c1.maxRetries + 1).toNat from rfl, hrun1]
    have hstep2 : fallbackLoop o reg [n1]
        (some ("provider " ++ n1 ++ ": " ++ combineErrors none (some r1))) [n2] =
        ([⟨n2, 0, true⟩], FallbackResult.success r2 n2) := by
      rw [fallbackLoop_run o reg [n1]
          (some ("provider " ++ n1 ++ ": " ++ combineErrors none (some r1))) n2 [] hct
          (by rw [hlk2]; exact h2) hk2]
      rw [hlk2, hr2idx, hrun2]
    simp only [hstep2]
  refine ⟨hmain, ?_, ?_⟩
  · rw [hmain]
    unfold attemptsOn
    rw [List.filter_append]
    have hf1 : ((List.range' 0 (c1.maxRetries + 1).toNat).map
        (fun k => (⟨n1, k, true⟩ : TraceEntry))).filter (fun e => e.provider == n1) =
        (List.range' 0 (c1.maxRetries + 1).toNat).map (fun k => (⟨n1, k, true⟩ : TraceEntry)) := by
      rw [List.filter_eq_self]
      intro e he
      obtain ⟨k, _, rfl⟩ := List.mem_map.mp he
      simp
    have hf2 : List.filter (fun e => e.provider == n1)
        [({ provider := n2, retry := 0, networkCalled := true } : TraceEntry)] = [] := by
      simp [hne]
    rw [hf1, hf2, List.append_nil, List.length_map, List.length_range']
  · have hne' : (n1 == n2) = false := by
      simp only [beq_eq_false_iff_ne, ne_eq] at hne ⊢
      exact fun h => hne h.symm
    rw [hmain]
    unfold attemptsOn
    rw [List.filter_append]
    have hf1 : ((List.range' 0 (c1.maxRetries + 1).toNat).map
        (fun k => (⟨n1, k, true⟩ : TraceEntry))).filter (fun e => e.provider == n2) = [] := by
      rw [List.filter_eq_nil_iff]
      intro e he
      obtain ⟨k, _, rfl⟩ := List.mem_map.mp he
      simp [hne']
    have hf2 : List.filter (fun e => e.provider == n2)
        [({ provider := n2, retry := 0, networkCalled := true } : TraceEntry)] =
        [({ provider := n2, retry := 0, networkCalled := true } : TraceEntry)] := by
      simp
    rw [hf1, hf2, List.nil_append]
    rfl

/-- Witness for C1: with maxRetries 2 on the failing provider P1 and a
succeeding P2, the dispatch records exactly 3 attempts on P1 and 1 on P2. -/
theorem claimC1_retry_then_fallback_witness :
    attemptsOn (makeRequestWithFallback
      ⟨fun _ => none, fun n _ =>
        if n == "P1" then Except.ok ⟨[], some ⟨"rate limit exceeded", "rate_limit"⟩⟩
        else Except.ok ⟨[⟨⟨"assistant", "hi"⟩⟩], none⟩⟩
      ⟨[("P1", ⟨0, true, 2, none⟩), ("P2", ⟨1, true, 1, none⟩)],
        fun n => ⟨n, "key", "ep", "m"⟩⟩).1 "P1" = 3 ∧
    attemptsOn (makeRequestWithFallback
      ⟨fun _ => none, fun n _ =>
        if n == "P1" then Except.ok ⟨[], some ⟨"rate limit exceeded", "rate_limit"⟩⟩
        else Except.ok ⟨[⟨⟨"assistant", "hi"⟩⟩], none⟩⟩
      ⟨[("P1", ⟨0, true, 2, none⟩), ("P2", ⟨1, true, 1, none⟩)],
        fun n => ⟨n, "key", "ep", "m"⟩⟩).1 "P2" = 1 :=
  (claimC1_retry_then_fallback _ _ "P1" "P2" ⟨0, true, 2, none⟩ ⟨1, true, 1, none⟩
    ⟨[], some ⟨"rate limit exceeded", "rate_limit"⟩⟩ ⟨[⟨⟨"assistant", "hi"⟩⟩], none⟩
    ⟨"rate limit exceeded", "rate_limit"⟩
    (by decide) rfl rfl rfl (by decide) (by decide) (by decide) (by decide) (by decide)
    rfl rfl (fun _ => rfl) rfl (by decide) (by decide) rfl rfl).2

/-- C5: when the highest-priority enabled provider has an empty credential
and a lower-priority enabled provider has one, the dispatch performs no
attempt at all on the credential-less provider (every recorded attempt is on
the other provider, so no retry budget is consumed on it) and the
lower-priority provider is the first one actually attempted, at retry 0. -/
theorem claimC5_skip_empty_credential
    (o : Oracle) (reg : Registry) (n0 n1 : String) (c0 c1 : AIProviderConfig)
    (hne : (n1 == n0) = false)
    (hcfgs : reg.providerCfgs = [(n0, c0), (n1, c1)])
    (h0 : c0.enabled = true) (h1 : c1.enabled = true)
    (hp : c0.priority ≤ c1.priority)
    (hk0 : ((reg.providers n0).apiKey == "") = true)
    (hk1 : ((reg.providers n1).apiKey == "") = false)
    (hmr1 : 0 ≤ c1.maxRetries) :
    (∀ e ∈ (makeRequestWithFallback o reg).1, e.provider = n1) ∧
    attemptsOn (makeRequestWithFallback o reg).1 n0 = 0 ∧
    (makeRequestWithFallback o reg).1.head? =
      some ⟨n1, 0, (makeRequest o n1 0).networkCalled⟩ := by
  have hord : getOrderedProviders reg.providerCfgs = [n0, n1] := by
    rw [hcfgs]
    exact getOrdered_two n0 n1 c0 c1 h0 h1 hp
  have hlk0 : lookupConfig reg n0 = c0 := by
    simp [lookupConfig, hcfgs, List.lookup]
  have hlk1 : lookupConfig reg n1 = c1 := by
    simp [lookupConfig, hcfgs, List.lookup, hne]
  have hct : ([n0].contains n1) = false := by
    simp only [List.contains_cons, hne, List.contains_nil, Bool.or_false]
  have hn1n0 : (n1 == n0) = false := hne
  have hstep : makeRequestWithFallback o reg = fallbackLoop o reg [n0] none [n1] := by
    rw [show makeRequestWithFallback o reg =
        fallbackLoop o reg [] none (getOrderedProviders reg.providerCfgs) from rfl, hord]
    exact fallbackLoop_skip_key o reg [] none n0 [n1] rfl (by rw [hlk0]; exact h0) hk0
  have hrun := fallbackLoop_run o reg [n0] none n1 [] hct (by rw [hlk1]; exact h1) hk1
  rw [hstep, hrun, hlk1]
  rcases hres : retryLoop o n1 c1.maxRetries none (retryIndices c1.maxRetries) with ⟨tr, outc⟩
  have hnames : ∀ e ∈ tr, e.provider = n1 := by
    have h := retryLoop_trace_names o n1 c1.maxRetries (retryIndices c1.maxRetries) none
    rw [hres] at h
    exact h
  have hhead : ∃ tl, tr = ⟨n1, 0, (makeRequest o n1 0).networkCalled⟩ :: tl := by
    have h0l : retryIndices c1.maxRetries = 0 :: List.range' 1 c1.maxRetries.toNat := by
      rw [retryIndices, show (c1.maxRetries + 1).toNat = c1.maxRetries.toNat + 1 from by omega]
      rfl
    have h := retryLoop_cons_head o n1 c1.maxRetries 0 (List.range' 1 c1.maxRetries.toNat) none
    rw [← h0l, hres] at h
    simpa using h
  have hcnt : attemptsOn tr n0 = 0 := by
    unfold attemptsOn
    rw [List.length_eq_zero, List.filter_eq_nil_iff]
    intro e he
    rw [show e.provider = n1 from hnames e he]
    simp [hn1n0]
  obtain ⟨tl, htl⟩ := hhead
  cases outc with
  | success response =>
    refine ⟨hnames, hcnt, ?_⟩
    rw [htl]
    rfl
  | exhausted le2 =>
    simp only [fallbackLoop_nil, List.append_nil]
    refine ⟨hnames, hcnt, ?_⟩
    rw [htl]
    rfl

/-- Witness for C5: with an empty credential on priority-0 provider P0 and a
valid priority-1 provider P1, no attempt is recorded on P0 and the first
attempt is P1 at retry 0. -/
theorem claimC5_skip_empty_credential_witness :
    attemptsOn (makeRequestWithFallback
      ⟨fun _ => none, fun _ _ => Except.ok ⟨[], none⟩⟩
      ⟨[("P0", ⟨0, true, 2, none⟩), ("P1", ⟨1, true, 2, none⟩)],
        fun n => if n == "P0" then ⟨n, "", "ep", "m"⟩ else ⟨n, "key", "ep", "m"⟩⟩).1 "P0" = 0 ∧
    (makeRequestWithFallback
      ⟨fun _ => none, fun _ _ => Except.ok ⟨[], none⟩⟩
      ⟨[("P0", ⟨0, true, 2, none⟩), ("P1", ⟨1, true, 2, none⟩)],
        fun n => if n == "P0" then ⟨n, "", "ep", "m"⟩ else ⟨n, "key", "ep", "m"⟩⟩).1.head? =
      some ⟨"P1", 0, true⟩ :=
  ⟨(claimC5_skip_empty_credential _ _ "P0" "P1" ⟨0, true, 2, none⟩ ⟨1, true, 2, none⟩
      (by decide) rfl rfl rfl (by decide) (by decide) (by decide) (by decide)).2.1,
    (claimC5_skip_empty_credential _ _ "P0" "P1" ⟨0, true, 2, none⟩ ⟨1, true, 2, none⟩
      (by decide) rfl rfl rfl (by decide) (by decide) (by decide) (by decide)).2.2⟩

theorem getOrdered_one (name : String) (c : AIProviderConfig) (hen : c.enabled = true) :
    getOrderedProviders [(name, c)] = [name] := by
  unfold getOrderedProviders orderedPairs enabledPriorities
  simp [List.filter_cons, hen, List.insertionSort, List.orderedInsert]

/-- Counterexample for C6: with serialization failing on every attempt for
provider P1 (maxRetries 2), the dispatch records three attempts on P1, none
of which reaches the network — so a serialization-failing attempt IS
re-attempted on the same provider, contrary to the claim that it is not
retried and consumes no further retry budget. -/
theorem claimC6_counterexample :
    (makeRequestWithFallback
      ⟨fun _ => some "json: unsupported type", fun _ _ => Except.ok ⟨[], none⟩⟩
      ⟨[("P1", ⟨0, true, 2, none⟩)], fun n => ⟨n, "key", "ep", "m"⟩⟩).1 =
      [⟨"P1", 0, false⟩, ⟨"P1", 1, false⟩, ⟨"P1", 2, false⟩] := by
  decide

/-- C6 (amended): an attempt whose payload serialization fails returns before
any network call and is classified `unknown` (its error text carrying none of
the timeout/network markers); but the orchestrator retries it like any other
failure, so the provider still consumes its full maxRetries+1 attempt budget,
every attempt failing at the serialization step. -/
theorem claimC6_marshal_failure_amended
    (o : Oracle) (reg : Registry) (name : String) (c : AIProviderConfig) (e : String)
    (hcfgs : reg.providerCfgs = [(name, c)])
    (hen : c.enabled = true) (hmr : 0 ≤ c.maxRetries)
    (hk : ((reg.providers name).apiKey == "") = false)
    (hmars : o.marshalErr name = some e)
    (ht1 : stringsContains e "timeout" = false)
    (ht2 : stringsContains e "deadline exceeded" = false)
    (ht3 : stringsContains e "connection" = false)
    (ht4 : stringsContains e "network" = false) :
    classifyError (some e) none = "unknown" ∧
    makeRequestWithFallback o reg =
      ((List.range' 0 (c.maxRetries + 1).toNat).map
          (fun k => (⟨name, k, false⟩ : TraceEntry)),
        FallbackResult.allFailed
          (some ("provider " ++ name ++ ": " ++ combineErrors (some e) none))) ∧
    attemptsOn (makeRequestWithFallback o reg).1 name = (c.maxRetries + 1).toNat := by
  have hcls : classifyError (some e) none = "unknown" := by
    simp [classifyError, ht1, ht2, ht3, ht4]
  have hord : getOrderedProviders reg.providerCfgs = [name] := by
    rw [hcfgs]
    exact getOrdered_one name c hen
  have hlk : lookupConfig reg name = c := by
    simp [lookupConfig, hcfgs, List.lookup]
  have hle2 : (if (c.maxRetries + 1).toNat = 0 then (none : Option String)
      else some ("provider " ++ name ++ ": " ++ combineErrors (some e) none)) =
      some ("provider " ++ name ++ ": " ++ combineErrors (some e) none) := by
    rw [if_neg]
    omega
  have hrun := retryLoop_const_fail_marshal o name c.maxRetries e hmars
    (c.maxRetries + 1).toNat 0 (by push_cast; omega) none
  rw [hle2] at hrun
  have hmain : makeRequestWithFallback o reg =
      ((List.range' 0 (c.maxRetries + 1).toNat).map
          (fun k => (⟨name, k, false⟩ : TraceEntry)),
        FallbackResult.allFailed
          (some ("provider " ++ name ++ ": " ++ combineErrors (some e) none))) := by
    rw [show makeRequestWithFallback o reg =
        fallbackLoop o reg [] none (getOrderedProviders reg.providerCfgs) from rfl, hord]
    rw [fallbackLoop_run o reg [] none name [] rfl (by rw [hlk]; exact hen) hk]
    rw [hlk, show retryIndices c.maxRetries =
        List.range' 0 (c.maxRetries + 1).toNat from rfl, hrun]
    simp only [fallbackLoop_nil, List.append_nil]
  refine ⟨hcls, hmain, ?_⟩
  rw [hmain]
  unfold attemptsOn
  have hf : ((List.range' 0 (c.maxRetries + 1).toNat).map
      (fun k => (⟨name, k, false⟩ : TraceEntry))).filter (fun x => x.provider == name) =
      (List.range' 0 (c.maxRetries + 1).toNat).map (fun k => (⟨name, k, false⟩ : TraceEntry)) := by
    rw [List.filter_eq_self]
    intro x hx
    obtain ⟨k, _, rfl⟩ := List.mem_map.mp hx
    simp
  rw [hf, List.length_map, List.length_range']

/-- Witness for C6 (amended): the concrete marshal-failure scenario is
classified `unknown` and consumes all three attempts of the budget. -/
theorem claimC6_marshal_failure_amended_witness :
    classifyError (some "json: unsupported type") none = "unknown" ∧
    attemptsOn (makeRequestWithFallback
      ⟨fun _ => some "json: unsupported type", fun _ _ => Except.ok ⟨[], none⟩⟩
      ⟨[("P1", ⟨0, true, 2, none⟩)], fun n => ⟨n, "key", "ep", "m"⟩⟩).1 "P1" = 3 :=
  ⟨(claimC6_marshal_failure_amended
      (⟨fun _ => some "json: unsupported type", fun _ _ => Except.ok ⟨[], none⟩⟩ : Oracle)
      (⟨[("P1", ⟨0, true, 2, none⟩)], fun n => ⟨n, "key", "ep", "m"⟩⟩ : Registry)
      "P1" ⟨0, true, 2, none⟩ "json: unsupported type"
      rfl rfl (by decide) (by decide) rfl (by decide) (by decide) (by decide) (by decide)).1,
    (claimC6_marshal_failure_amended
      (⟨fun _ => some "json: unsupported type", fun _ _ => Except.ok ⟨[], none⟩⟩ : Oracle)
      (⟨[("P1", ⟨0, true, 2, none⟩)], fun n => ⟨n, "key", "ep", "m"⟩⟩ : Registry)
      "P1" ⟨0, true, 2, none⟩ "json: unsupported type"
      rfl rfl (by decide) (by decide) rfl (by decide) (by decide) (by decide) (by decide)).2.2⟩
